import Mathlib

/-!
Shallow embedding of the node layer of the dasp_graph crate
(src/dasp_graph/src/node/mod.rs and src/dasp_graph/src/node/boxed.rs).

Audio samples are idealised as rationals.  A Rust reference to a slice of
buffers (a fat pointer: raw pointer plus length) is modelled as an offset
and a length into an ambient memory region, the list of all buffers live
during one graph traversal step.  Mutable state is threaded explicitly: a
Rust method taking a mutable receiver becomes a function from the old
state to the new state.
-/

/-- Modelled from the spec: the buffer type (the buffer module is not among
the given sources).  A Buffer holds the audio samples of one channel for one
block; samples are idealised as rationals. -/
abbrev Buffer : Type := List ℚ

/-- Modelled from the spec: the "fill with silence" operation resets every
sample to the zero value. -/
def Buffer.silence (b : Buffer) : Buffer := b.map fun _ => 0

/-- Modelled from the dasp_slice crate used by the Sum doc example:
add_in_place a b adds b onto a elementwise, writing into a. -/
def add_in_place (a b : Buffer) : Buffer := List.zipWith (fun x y => x + y) a b

/-- The ambient memory region holding every buffer live during one traversal
step; the raw pointers of the source are offsets into this region. -/
abbrev Mem : Type := List Buffer

/-- A Rust slice reference to buffers: a base offset (the value of as_ptr)
and a length (the value of len) into the ambient memory region. -/
structure Slice where
  start : Nat
  len : Nat
deriving DecidableEq

/-- Dereference a slice against the ambient memory. -/
def Slice.read (mem : Mem) (s : Slice) : List Buffer :=
  (mem.drop s.start).take s.len

/-- Input from node/mod.rs: a reference to another node that is an input to
the current node — the caller-chosen edge variant together with a raw
pointer and a length describing the predecessor's output buffers. -/
structure Input (T : Type) where
  variant : T
  buffers_ptr : Nat
  buffers_len : Nat
deriving DecidableEq

/-- Input::new from node/mod.rs: store the slice's pointer and length
together with the variant; the samples themselves are not copied. -/
def Input.new {T : Type} (slice : Slice) (variant : T) : Input T :=
  { variant := variant, buffers_ptr := slice.start, buffers_len := slice.len }

/-- Input::buffers from node/mod.rs: rebuild the slice from the stored raw
pointer and length against the current memory (from_raw_parts). -/
def Input.buffers {T : Type} (mem : Mem) (i : Input T) : List Buffer :=
  (mem.drop i.buffers_ptr).take i.buffers_len

/-- Model of the DebugStruct builder of core::fmt: a struct name and the
formatted fields added so far. -/
structure DebugStructBuilder where
  name : String
  fields : List (String × String)

/-- Formatter::debug_struct: start a builder with no fields. -/
def debug_struct (n : String) : DebugStructBuilder := { name := n, fields := [] }

/-- DebugStruct::finish: with no fields only the struct name is printed. -/
def DebugStructBuilder.finish (d : DebugStructBuilder) : String :=
  if d.fields.isEmpty then d.name
  else
    d.name ++ " \x7b " ++
      String.intercalate ", " (d.fields.map fun p => p.1 ++ ": " ++ p.2) ++ " \x7d"

/-- Debug for a slice of buffers, abstract in the element formatter (the
Debug impl of Buffer lives in the buffer module, outside the given
sources). -/
def fmtBufferSlice (bf : Buffer → String) (l : List Buffer) : String :=
  "[" ++ String.intercalate ", " (l.map bf) ++ "]"

/-- Debug for Input from node/mod.rs: dereference the stored pointer via
buffers() and format the referenced slice. -/
def Input.fmt {T : Type} (bf : Buffer → String) (mem : Mem) (i : Input T) : String :=
  fmtBufferSlice bf (Input.buffers mem i)

/-- An implementation of the Node trait of node/mod.rs for a concrete state
type S and input variant type I: process reads the inputs (dereferenced
against the ambient memory) and the output buffers, and returns the new
node state together with the new output buffers. -/
structure NodeImpl (S I : Type) where
  process : S → Mem → List (Input I) → List Buffer → S × List Buffer

/-- An owned heap allocation (Rust Box). -/
structure Box (α : Type u) : Type u where
  val : α

/-- Box::new. -/
def Box.new {α : Type u} (a : α) : Box α := { val := a }

/-- A type-erased node (Rust dyn Node with input variant type I): the
concrete state type, its Node implementation and the current state. -/
structure DynNode (I : Type) : Type 1 where
  State : Type
  impl : NodeImpl State I
  state : State

/-- Process through the type-erased node: dynamic dispatch to the concrete
implementation. -/
def DynNode.process {I : Type} (d : DynNode I) (mem : Mem)
    (inputs : List (Input I)) (output : List Buffer) : DynNode I × List Buffer :=
  let r := d.impl.process d.state mem inputs output
  ({ State := d.State, impl := d.impl, state := r.1 }, r.2)

/-- The unsizing coercion from an owned box of a concrete node to an owned
box of a type-erased node, used by the From impls in boxed.rs. -/
def Box.asDyn {S I : Type} (n : Box (NodeImpl S I × S)) : Box (DynNode I) :=
  { val := { State := S, impl := n.val.1, state := n.val.2 } }

/-- BoxedNode from boxed.rs: a wrapper around a boxed type-erased node. -/
structure BoxedNode (I : Type) : Type 1 where
  box : Box (DynNode I)

/-- BoxedNodeSend from boxed.rs: identical to BoxedNode except that the
boxed node is additionally Send, a compile-time marker with no run-time
content. -/
structure BoxedNodeSend (I : Type) : Type 1 where
  box : Box (DynNode I)

/-- The From impl for BoxedNode in boxed.rs. -/
def BoxedNode.fromBox {S I : Type} (n : Box (NodeImpl S I × S)) : BoxedNode I :=
  { box := n.asDyn }

/-- BoxedNode::new: shorthand for applying From to Box::new node. -/
def BoxedNode.new {S I : Type} (impl : NodeImpl S I) (s : S) : BoxedNode I :=
  BoxedNode.fromBox (Box.new (impl, s))

/-- Node::process for BoxedNode from boxed.rs: forward to the boxed node. -/
def BoxedNode.process {I : Type} (b : BoxedNode I) (mem : Mem)
    (inputs : List (Input I)) (output : List Buffer) : BoxedNode I × List Buffer :=
  let r := b.box.val.process mem inputs output
  ({ box := { val := r.1 } }, r.2)

/-- The Into impl for BoxedNode in boxed.rs: give back the held box. -/
def BoxedNode.into {I : Type} (b : BoxedNode I) : Box (DynNode I) := b.box

/-- Deref for BoxedNode from boxed.rs: a reference to field 0. -/
def BoxedNode.deref {I : Type} (b : BoxedNode I) : Box (DynNode I) := b.box

/-- DerefMut for BoxedNode from boxed.rs, in state-passing style: a mutation
performed through the mutable reference to field 0 returned by deref_mut
updates field 0 in place. -/
def BoxedNode.modifyViaDerefMut {I : Type} (b : BoxedNode I)
    (f : Box (DynNode I) → Box (DynNode I)) : BoxedNode I :=
  { box := f b.box }

/-- Debug for BoxedNode from boxed.rs. -/
def BoxedNode.fmt {I : Type} (_ : BoxedNode I) : String :=
  (debug_struct "BoxedNode").finish

/-- The From impl for BoxedNodeSend in boxed.rs. -/
def BoxedNodeSend.fromBox {S I : Type} (n : Box (NodeImpl S I × S)) : BoxedNodeSend I :=
  { box := n.asDyn }

/-- BoxedNodeSend::new: shorthand for applying From to Box::new node. -/
def BoxedNodeSend.new {S I : Type} (impl : NodeImpl S I) (s : S) : BoxedNodeSend I :=
  BoxedNodeSend.fromBox (Box.new (impl, s))

/-- Node::process for BoxedNodeSend from boxed.rs: forward to the boxed
node. -/
def BoxedNodeSend.process {I : Type} (b : BoxedNodeSend I) (mem : Mem)
    (inputs : List (Input I)) (output : List Buffer) : BoxedNodeSend I × List Buffer :=
  let r := b.box.val.process mem inputs output
  ({ box := { val := r.1 } }, r.2)

/-- The Into impl for BoxedNodeSend in boxed.rs: give back the held box. -/
def BoxedNodeSend.into {I : Type} (b : BoxedNodeSend I) : Box (DynNode I) := b.box

/-- Deref for BoxedNodeSend from boxed.rs: a reference to field 0. -/
def BoxedNodeSend.deref {I : Type} (b : BoxedNodeSend I) : Box (DynNode I) := b.box

/-- DerefMut for BoxedNodeSend from boxed.rs, in state-passing style. -/
def BoxedNodeSend.modifyViaDerefMut {I : Type} (b : BoxedNodeSend I)
    (f : Box (DynNode I) → Box (DynNode I)) : BoxedNodeSend I :=
  { box := f b.box }

/-- Debug for BoxedNodeSend from boxed.rs. -/
def BoxedNodeSend.fmt {I : Type} (_ : BoxedNodeSend I) : String :=
  (debug_struct "BoxedNodeSend").finish

/-- The blanket Node impl for mutable references in node/mod.rs: in
state-passing style a mutable reference is the referent itself, and process
forwards through the dereference. -/
def NodeImpl.mutRef {S I : Type} (n : NodeImpl S I) : NodeImpl S I :=
  { process := fun s mem inputs output => n.process s mem inputs output }

/-- The blanket Node impl for boxes in node/mod.rs: the state is the box and
process forwards to the boxed value through the dereference. -/
def NodeImpl.boxed {S I : Type} (n : NodeImpl S I) : NodeImpl (Box S) I :=
  { process := fun b mem inputs output =>
      let r := n.process b.val mem inputs output
      ({ val := r.1 }, r.2) }

/-- The Node impl for plain function values in node/mod.rs: a plain function
with the processing signature is a stateless node, and its process is
exactly the call of the function. -/
def NodeImpl.ofFn {I : Type}
    (f : Mem → List (Input I) → List Buffer → List Buffer) : NodeImpl Unit I :=
  { process := fun s mem inputs output => (s, f mem inputs output) }

/-- The Node impl for mutable closures in node/mod.rs: a closure with
captured state; its process is exactly the call of the closure. -/
def NodeImpl.ofFnMut {S I : Type}
    (f : S → Mem → List (Input I) → List Buffer → S × List Buffer) : NodeImpl S I :=
  { process := f }

/-- The inner loop of Sum::process for one output channel (channel index
paired with the current contents of the channel's output buffer): fold over
the inputs, adding an input's buffer for this channel in place when the
input has one and skipping the input otherwise. -/
def Sum.processChannel {I : Type} (mem : Mem) (inputs : List (Input I))
    (ce : Nat × Buffer) : Buffer :=
  inputs.foldl
    (fun ob inp =>
      match (Input.buffers mem inp)[ce.1]? with
      | some ib => add_in_place ob ib
      | none => ob)
    ce.2

/-- Sum::process from the Node doc example in node/mod.rs: fill the output
with silence, then sum every input onto every output channel. -/
def Sum.process {I : Type} (mem : Mem) (inputs : List (Input I))
    (output : List Buffer) : List Buffer :=
  ((output.map Buffer.silence).enum).map (Sum.processChannel mem inputs)

/-- Helper: for a channel index c, every input whose buffer list is shorter
than c + 1 is skipped by the per-channel fold of Sum::process, so the fold
over a list made of such inputs returns its initial buffer unchanged. -/
theorem processChannel_skips {I : Type} (mem : Mem) (c : Nat) :
    ∀ (inputs : List (Input I)) (ob : Buffer),
      (∀ inp ∈ inputs, (Input.buffers mem inp).length ≤ c) →
      Sum.processChannel mem inputs (c, ob) = ob := by
  intro inputs
  induction inputs with
  | nil => intro ob _; rfl
  | cons i rest ih =>
      intro ob h
      have hi : (Input.buffers mem i)[c]? = none :=
        List.getElem?_eq_none (h i (List.mem_cons_self i rest))
      have hstep : (match (Input.buffers mem i)[c]? with
          | some ib => add_in_place ob ib
          | none => ob) = ob := by rw [hi]
      calc Sum.processChannel mem (i :: rest) (c, ob)
          = Sum.processChannel mem rest
              (c, match (Input.buffers mem i)[c]? with
                  | some ib => add_in_place ob ib
                  | none => ob) := rfl
        _ = Sum.processChannel mem rest (c, ob) := by rw [hstep]
        _ = ob := ih ob fun inp hm => h inp (List.mem_cons_of_mem i hm)

/-- C1: for every node (implementation and state), inputs and output
buffers, process on BoxedNode::new n and on BoxedNodeSend::new n produces
exactly the output buffers of a direct call to n.process and leaves the
wrapped node in exactly the directly-evolved state; the wrappers add no
behavior. -/
theorem boxedNode_process_forwards {S I : Type} (impl : NodeImpl S I) (s : S)
    (mem : Mem) (inputs : List (Input I)) (output : List Buffer) :
    (BoxedNode.new impl s).process mem inputs output =
      (BoxedNode.new impl (impl.process s mem inputs output).1,
        (impl.process s mem inputs output).2) ∧
    (BoxedNodeSend.new impl s).process mem inputs output =
      (BoxedNodeSend.new impl (impl.process s mem inputs output).1,
        (impl.process s mem inputs output).2) :=
  ⟨rfl, rfl⟩

/-- C3: unwrapping a BoxedNode or BoxedNodeSend (the Into impl) yields
exactly the box the wrapper was holding, and invoking process on the
unwrapped box gives the same output buffers and the same resulting node as
invoking process through the wrapper. -/
theorem boxedNode_unwrap_round_trip {I : Type} (b c : Box (DynNode I))
    (mem : Mem) (inputs : List (Input I)) (output : List Buffer) :
    (BoxedNode.mk b).into = b ∧
    ((BoxedNode.mk b).into.val.process mem inputs output).2 =
      ((BoxedNode.mk b).process mem inputs output).2 ∧
    ((BoxedNode.mk b).into.val.process mem inputs output).1 =
      ((BoxedNode.mk b).process mem inputs output).1.box.val ∧
    (BoxedNodeSend.mk c).into = c ∧
    ((BoxedNodeSend.mk c).into.val.process mem inputs output).2 =
      ((BoxedNodeSend.mk c).process mem inputs output).2 ∧
    ((BoxedNodeSend.mk c).into.val.process mem inputs output).1 =
      ((BoxedNodeSend.mk c).process mem inputs output).1.box.val :=
  ⟨rfl, rfl, rfl, rfl, rfl, rfl⟩

/-- C4: the blanket Node impls are pure forwarders — process through a
mutable reference or a box equals the inner process on the same arguments,
and a plain function or closure value with the processing signature is
accepted as a node whose process is exactly the call of that function. -/
theorem blanket_impls_forward {S I : Type} (n : NodeImpl S I) (s : S)
    (f : Mem → List (Input I) → List Buffer → List Buffer)
    (g : S → Mem → List (Input I) → List Buffer → S × List Buffer)
    (mem : Mem) (inputs : List (Input I)) (output : List Buffer) :
    (NodeImpl.mutRef n).process s mem inputs output =
      n.process s mem inputs output ∧
    (NodeImpl.boxed n).process (Box.new s) mem inputs output =
      (Box.new (n.process s mem inputs output).1,
        (n.process s mem inputs output).2) ∧
    (NodeImpl.ofFn f).process () mem inputs output = ((), f mem inputs output) ∧
    (NodeImpl.ofFnMut g).process s mem inputs output = g s mem inputs output :=
  ⟨rfl, rfl, rfl, rfl⟩

/-- C8: debug formatting of the dynamic wrappers depends only on the
wrapper type — any two BoxedNode values format identically, to the string
"BoxedNode", and any two BoxedNodeSend values format identically, to the
string "BoxedNodeSend", whatever nodes they wrap. -/
theorem boxed_debug_noninterference {I J : Type} (b1 b2 : BoxedNode I)
    (c1 c2 : BoxedNodeSend J) :
    BoxedNode.fmt b1 = BoxedNode.fmt b2 ∧
    BoxedNode.fmt b1 = "BoxedNode" ∧
    BoxedNodeSend.fmt c1 = BoxedNodeSend.fmt c2 ∧
    BoxedNodeSend.fmt c1 = "BoxedNodeSend" :=
  ⟨rfl, rfl, rfl, rfl⟩

/-- C9: dereferencing a BoxedNode or BoxedNodeSend yields the very inner
box the wrapper owns, and a mutation performed through the mutable
dereference acts on the same node instance that subsequent process calls
through the wrapper use. -/
theorem boxed_deref_inner_box {I : Type} (b : BoxedNode I) (c : BoxedNodeSend I)
    (f g : Box (DynNode I) → Box (DynNode I))
    (mem : Mem) (inputs : List (Input I)) (output : List Buffer) :
    b.deref = b.box ∧
    (b.modifyViaDerefMut f).box = f b.box ∧
    (b.modifyViaDerefMut f).process mem inputs output =
      (BoxedNode.mk (f b.box)).process mem inputs output ∧
    c.deref = c.box ∧
    (c.modifyViaDerefMut g).box = g c.box ∧
    (c.modifyViaDerefMut g).process mem inputs output =
      (BoxedNodeSend.mk (g c.box)).process mem inputs output :=
  ⟨rfl, rfl, rfl, rfl, rfl, rfl⟩

/-- C10: the Debug impl of Input dereferences the stored raw pointer and
formats the referenced buffers — for an Input built from a live slice, its
debug output equals the debug output of that slice read from the same
memory. -/
theorem input_debug_formats_buffers {T : Type} (bf : Buffer → String)
    (mem : Mem) (s : Slice) (v : T) :
    Input.fmt bf mem (Input.new s v) = fmtBufferSlice bf (Slice.read mem s) :=
  rfl

/-- C2: the Input view built by Input::new slice v carries the variant v,
stores only the slice's pointer and length (no sample is copied), and — as
long as the memory the slice points into is unchanged — buffers() returns a
list with the same elements and the same length as the slice. -/
theorem input_new_view {T : Type} (mem : Mem) (s : Slice) (v : T)
    (h : s.start + s.len ≤ mem.length) :
    (Input.new s v).variant = v ∧
    (Input.new s v).buffers_ptr = s.start ∧
    (Input.new s v).buffers_len = s.len ∧
    Input.buffers mem (Input.new s v) = Slice.read mem s ∧
    (Input.buffers mem (Input.new s v)).length = s.len := by
  refine ⟨rfl, rfl, rfl, rfl, ?_⟩
  simp only [Input.buffers, Input.new, List.length_take, List.length_drop]
  omega

/-- Witness for C2 at a concrete memory, slice and variant. -/
theorem input_new_view_witness :
    (⟨1, 2⟩ : Slice).start + (⟨1, 2⟩ : Slice).len ≤
      ([[1], [2, 3], [4]] : Mem).length ∧
    (Input.new ⟨1, 2⟩ (7 : ℕ)).variant = 7 ∧
    Input.buffers [[1], [2, 3], [4]] (Input.new ⟨1, 2⟩ (7 : ℕ)) =
      Slice.read [[1], [2, 3], [4]] ⟨1, 2⟩ ∧
    (Input.buffers [[1], [2, 3], [4]] (Input.new ⟨1, 2⟩ (7 : ℕ))).length = 2 :=
  ⟨by decide,
    (input_new_view [[1], [2, 3], [4]] ⟨1, 2⟩ 7 (by decide)).1,
    (input_new_view [[1], [2, 3], [4]] ⟨1, 2⟩ 7 (by decide)).2.2.2.1,
    (input_new_view [[1], [2, 3], [4]] ⟨1, 2⟩ 7 (by decide)).2.2.2.2⟩

/-- C5: given exactly two inputs each providing one buffer in which every
sample equals the constant v, and an output list holding one buffer of the
matching length, one Sum::process call leaves every sample of the output
buffer equal to 2v — the output is cleared to silence and then each input's
buffer is added in place. -/
theorem sum_two_constant_inputs {I : Type} (mem : Mem) (i1 i2 : Input I)
    (b : Buffer) (n : Nat) (v : ℚ)
    (h1 : Input.buffers mem i1 = [List.replicate n v])
    (h2 : Input.buffers mem i2 = [List.replicate n v])
    (hb : b.length = n) :
    Sum.process mem [i1, i2] [b] = [List.replicate n (2 * v)] := by
  have hsil : Buffer.silence b = List.replicate n 0 := by
    unfold Buffer.silence
    rw [List.map_const', hb]
  have key : Sum.processChannel mem [i1, i2] (0, Buffer.silence b)
      = List.replicate n (2 * v) := by
    unfold Sum.processChannel
    simp only [List.foldl_cons, List.foldl_nil, h1, h2]
    show add_in_place (add_in_place (Buffer.silence b) (List.replicate n v))
        (List.replicate n v) = List.replicate n (2 * v)
    rw [hsil]
    unfold add_in_place
    rw [List.zipWith_replicate, Nat.min_self, List.zipWith_replicate, Nat.min_self]
    have hv : (0 : ℚ) + v + v = 2 * v := by ring
    rw [hv]
  show [Sum.processChannel mem [i1, i2] (0, Buffer.silence b)]
      = [List.replicate n (2 * v)]
  rw [key]

/-- Witness for C5: two inputs each seeing one constant-1 buffer of length
two give an output buffer of constant 2. -/
theorem sum_two_constant_inputs_witness :
    Input.buffers [[1, 1], [1, 1]] (⟨(), 0, 1⟩ : Input Unit) =
      [List.replicate 2 (1 : ℚ)] ∧
    Sum.process [[1, 1], [1, 1]] [(⟨(), 0, 1⟩ : Input Unit), ⟨(), 1, 1⟩] [[5, 7]] =
      [List.replicate 2 (2 * 1 : ℚ)] :=
  ⟨by decide,
    sum_two_constant_inputs [[1, 1], [1, 1]] ⟨(), 0, 1⟩ ⟨(), 1, 1⟩ [5, 7] 2 1
      (by decide) (by decide) (by decide)⟩

/-- C6: a channel-count mismatch is never an error — the per-channel fold of
Sum::process leaves its buffer unchanged on an input whose buffer list has
length at most the channel index (the lookup yields none and the input is
skipped), and an output channel for which every input lacks data holds
exactly the silenced original buffer after the call. -/
theorem sum_mismatch_graceful {I : Type} (mem : Mem) (inputs : List (Input I))
    (output : List Buffer) (c : Nat) (ob : Buffer) (inp : Input I)
    (h1 : (Input.buffers mem inp).length ≤ c)
    (h : ∀ j ∈ inputs, (Input.buffers mem j).length ≤ c) :
    Sum.processChannel mem [inp] (c, ob) = ob ∧
    (Sum.process mem inputs output)[c]? = (output[c]?).map Buffer.silence := by
  constructor
  · exact processChannel_skips mem c [inp] ob (by
      intro j hj
      rw [List.mem_singleton] at hj
      rw [hj]
      exact h1)
  · unfold Sum.process
    rw [List.getElem?_map, List.getElem?_enum, List.getElem?_map]
    cases hb : output[c]? with
    | none => rfl
    | some b =>
        show some (Sum.processChannel mem inputs (c, Buffer.silence b))
            = some (Buffer.silence b)
        exact congrArg some (processChannel_skips mem c inputs (Buffer.silence b) h)

/-- Witness for C6: one input with a single buffer is skipped for channel 1,
and output channel 1 is silenced, not an error. -/
theorem sum_mismatch_graceful_witness :
    (Input.buffers [[3, 3]] (⟨(), 0, 1⟩ : Input Unit)).length ≤ 1 ∧
    Sum.processChannel [[3, 3]] [(⟨(), 0, 1⟩ : Input Unit)] (1, [9]) = [9] ∧
    (Sum.process [[3, 3]] [(⟨(), 0, 1⟩ : Input Unit)] [[4], [5]])[1]? =
      (([[4], [5]] : List Buffer)[1]?).map Buffer.silence :=
  ⟨by decide,
    (sum_mismatch_graceful [[3, 3]] [⟨(), 0, 1⟩] [[4], [5]] 1 [9] ⟨(), 0, 1⟩
      (by decide) (by decide)).1,
    (sum_mismatch_graceful [[3, 3]] [⟨(), 0, 1⟩] [[4], [5]] 1 [9] ⟨(), 0, 1⟩
      (by decide) (by decide)).2⟩
